import Mathlib

/-!
Verification of the form-discovery / value-injection core of the extension
(the functions `findActiveModal`, `getFormFields`, `fillFormData` and
`hasFormElements` of the form-utility module).

The DOM is shallowly embedded: an element is a record of the attributes and
computed-style facts the code reads; `<label for=...>` elements of the
resolved scope are an association list from the `for` attribute to the raw
`textContent`; JavaScript scalars (the values the generation endpoint can
return) are `JsVal`.  DOM writes that may raise are modelled by a per-element
`raises` flag meaning "the DOM mutation for this element throws when
executed"; code without a `try/catch` propagates that as `Except.error`.
The fire-and-forget `setTimeout` continuations of the widget branches are
outside the synchronous pass and are not modelled.
-/

namespace AutoFill

/-- A JavaScript scalar value as it can occur in the value map passed to
`fillFormData` (the code also guards against `null`). -/
inductive JsVal where
  | str (s : String)
  | num (n : Int)
  | bool (b : Bool)
  | null
deriving DecidableEq, Repr

/-- JavaScript `String(value)` on a scalar. -/
def jsString : JsVal → String
  | .str s => s
  | .num n => toString n
  | .bool b => if b then "true" else "false"
  | .null => "null"

/-- JavaScript `Boolean(value)` (truthiness) on a scalar: the empty string,
`0`, `false` and `null` are falsy, everything else is truthy.  In particular
the non-empty string `"false"` is truthy. -/
def jsTruthy : JsVal → Bool
  | .str s => !(s == "")
  | .num n => !(n == 0)
  | .bool b => b
  | .null => false

/-- `p` is a prefix of `l` (character lists). -/
def prefixOfL : List Char → List Char → Bool
  | [], _ => true
  | _ :: _, [] => false
  | a :: as, b :: bs => a == b && prefixOfL as bs

/-- `p` occurs as a contiguous run inside `l`; models `String.includes`. -/
def infixOfL (p : List Char) : List Char → Bool
  | [] => prefixOfL p []
  | b :: bs => prefixOfL p (b :: bs) || infixOfL p bs

/-- JavaScript `s.includes(pat)`. -/
def strContains (s pat : String) : Bool :=
  infixOfL pat.toList s.toList

/-- The framework-generated id test of the code, `id.match(/^:r\d+:$/)`:
a colon, the letter `r`, one or more digits, a closing colon. -/
def isAutoGenId (s : String) : Bool :=
  match s.toList with
  | ':' :: 'r' :: rest =>
      !(rest.takeWhile Char.isDigit).isEmpty
        && decide (rest.dropWhile Char.isDigit = [':'])
  | _ => false

/-- One application of the code's `label.replace(/\s*\*+\s*/, "")`: the
regex has no `g` flag and no anchors, so only the FIRST run of asterisks —
wherever it sits in the string — is removed, together with the whitespace
immediately around it.  A string without `*` is returned unchanged. -/
def stripReqMarker (cs : List Char) : List Char :=
  let pre := cs.takeWhile (fun c => !(c == '*'))
  let post := cs.dropWhile (fun c => !(c == '*'))
  match post with
  | [] => cs
  | _ :: _ =>
      (pre.reverse.dropWhile Char.isWhitespace).reverse
        ++ ((post.dropWhile (fun c => c == '*')).dropWhile Char.isWhitespace)

/-- JavaScript `s.trim()`: strip leading and trailing whitespace. -/
def jsTrim (s : String) : String :=
  (((s.toList.dropWhile Char.isWhitespace).reverse.dropWhile Char.isWhitespace).reverse).asString

/-- The label-text cleanup applied to a `<label>`'s `textContent`:
`textContent.trim()`, then `replace(/\s*\*+\s*/, "")`, then `.trim()`. -/
def cleanLabel (raw : String) : String :=
  jsTrim ((stripReqMarker (jsTrim raw).toList).asString)

/-! ## Scope resolver (`findActiveModal`) -/

/-- The facts about one page element that `findActiveModal` reads: whether
it belongs to the extension's own injected UI (`data-plasmo-inline` on it or
an ancestor), its computed style, the parsed `z-index` (`none` models the
`NaN` result of `parseInt` on a non-numeric value such as `auto`), its
`role` and class string, whether it contains a native form control, and its
bounding-box size. -/
structure StyledEl where
  plasmo : Bool := false
  display : String := "block"
  visibility : String := "visible"
  position : String := "static"
  zIndex : Option Int := none
  role : String := ""
  className : String := ""
  hasFormControl : Bool := false
  width : Int := 0
  height : Int := 0
deriving DecidableEq, Repr

/-- The explicit dialog signal: `role="dialog"` or a class-name containing
`modal`, `dialog`, `popup` or `overlay`. -/
def dialogSignal (e : StyledEl) : Bool :=
  e.role == "dialog"
    || strContains e.className "modal"
    || strContains e.className "dialog"
    || strContains e.className "popup"
    || strContains e.className "overlay"

/-- The modal-candidate filter of `findActiveModal`: not part of the
extension's own UI, visible, `fixed`/`absolute` positioned, z-index ≥ 1000
or an explicit dialog signal, contains a form control, and at least
200 × 100 pixels. -/
def isModalCandidate (e : StyledEl) : Bool :=
  !e.plasmo
    && !(e.display == "none" || e.visibility == "hidden")
    && (e.position == "fixed" || e.position == "absolute")
    && (match e.zIndex with
        | some z => if z < 1000 then dialogSignal e else true
        | none => dialogSignal e)
    && e.hasFormControl
    && !(e.width < 200 || e.height < 100)

/-- The effective z-index stored with a candidate, `zIndex || 0`:
an indeterminate (`NaN`) z-index becomes 0. -/
def effZ (e : StyledEl) : Int :=
  e.zIndex.getD 0

/-- Stable insertion of a candidate into a list sorted by descending
effective z-index: an element goes in front of the first element whose
z-index does not exceed its own, so earlier-encountered elements stay in
front of later ones with the same z-index. -/
def insertByZ (x : StyledEl) : List StyledEl → List StyledEl
  | [] => [x]
  | y :: ys => if effZ y ≤ effZ x then x :: y :: ys else y :: insertByZ x ys

/-- The stable descending sort by effective z-index performed by
`candidateModals.sort((a, b) => b.zIndex - a.zIndex)` (JavaScript `sort`
is required to be stable). -/
def sortByZDesc : List StyledEl → List StyledEl
  | [] => []
  | x :: xs => insertByZ x (sortByZDesc xs)

/-- `findActiveModal`: filter the document's elements (in document order)
through the modal-candidate predicate, sort the candidates by descending
effective z-index and return the first, or `none` when there is no
candidate (the callers then fall back to the whole document). -/
def findActiveModal (dom : List StyledEl) : Option StyledEl :=
  (sortByZDesc (dom.filter isModalCandidate)).head?

/-- One step of the specification-side maximum selection: keep the current
best unless the new candidate's effective z-index strictly exceeds it. -/
def zPick (best c : StyledEl) : StyledEl :=
  if effZ best < effZ c then c else best

/-- Specification-side selection: the first candidate, in encounter order,
that attains the greatest effective z-index. -/
def pickTopZ : List StyledEl → Option StyledEl
  | [] => none
  | x :: xs => some (xs.foldl zPick x)

/-! ## Form controls -/

/-- The tag of a node matched by the `"input, textarea, select"` query. -/
inductive Tag where
  | inputTag
  | textareaTag
  | selectTag
deriving DecidableEq, Repr

/-- One `<option>` of a native select, as the code reads it: the `value`
IDL attribute and the visible `text`. -/
structure OptionEl where
  value : String := ""
  text : String := ""
deriving DecidableEq, Repr

/-- One form control, carrying exactly the facts the code reads.  `type` is
the `type` IDL attribute (`"text"` for an input without a type attribute).
`antPicker` / `antSelect` model the ancestor/class detection of the Ant
Design date-picker and custom-select widgets; `antSelectHasSelector` models
whether the widget container has an `.ant-select-selector` child.
`raises` models whether a DOM write on this element throws. -/
structure Elem where
  tag : Tag := .inputTag
  type : String := "text"
  disabled : Bool := false
  id : String := ""
  name : String := ""
  placeholder : String := ""
  requiredAttr : Bool := false
  ariaRequired : Bool := false
  value : String := ""
  checked : Bool := false
  options : List OptionEl := []
  antPicker : Bool := false
  antSelect : Bool := false
  antSelectHasSelector : Bool := true
  raises : Bool := false
deriving DecidableEq, Repr

/-- A resolved search scope (the whole document, or the detected modal):
its form controls in document order, and its `<label for=...>` elements as
pairs of the `for` attribute and the raw `textContent`, in document order
(`querySelector` returns the first match). -/
structure Scope where
  elems : List Elem := []
  labels : List (String × String) := []
deriving DecidableEq, Repr

/-- The `label[for=id]` lookup both passes share: nothing is looked up for
an empty id; the first matching label's `textContent` is cleaned with
`cleanLabel`; no label element yields the empty string. -/
def labelElemText (sc : Scope) (id : String) : String :=
  if id == "" then ""
  else
    match sc.labels.find? (fun p => p.1 == id) with
    | some p => cleanLabel p.2
    | none => ""

/-- The label-resolution chain of `getFormFields`: the cleaned
`label[for]` text when non-empty; else the id unless empty or
framework-generated; else the name under the same exclusion; else the
placeholder (selects have none) when non-empty; else `element.type` or the
`"未命名字段"` sentinel. -/
def extractLabel (sc : Scope) (e : Elem) : String :=
  let label := labelElemText sc e.id
  if label == "" then
    if !(e.id == "") && !isAutoGenId e.id then e.id
    else if !(e.name == "") && !isAutoGenId e.name then e.name
    else
      let ph := if e.tag == Tag.selectTag then "" else e.placeholder
      if !(ph == "") then ph
      else if !(e.type == "") then e.type
      else "未命名字段"
  else label

/-- `element.type || "text"`, then overridden for textarea/select tags. -/
def fieldTypeOf (e : Elem) : String :=
  match e.tag with
  | .textareaTag => "textarea"
  | .selectTag => "select"
  | .inputTag => if e.type == "" then "text" else e.type

/-- `s || undefined`. -/
def optStr (s : String) : Option String :=
  if s == "" then none else some s

/-- The descriptor emitted for one accepted control. -/
structure FormField where
  label : String
  type : String
  name : Option String
  id : Option String
  placeholder : Option String
  required : Bool
deriving DecidableEq, Repr

/-- The descriptor `getFormFields` builds for a control it accepts. -/
def mkDescriptor (sc : Scope) (e : Elem) : FormField :=
  { label := extractLabel sc e
    type := fieldTypeOf e
    name := optStr e.name
    id := optStr e.id
    placeholder := if e.tag == Tag.selectTag then none else optStr e.placeholder
    required := e.requiredAttr || e.ariaRequired }

/-- The per-control body of `getFormFields`: skip inputs of type
hidden/submit/button/reset/radio, skip disabled controls, resolve the
label, drop the control when the label is low-information and neither id
nor name is usable, else emit the descriptor. -/
def extractFieldOne (sc : Scope) (e : Elem) : Option FormField :=
  if e.tag == Tag.inputTag
      && (e.type == "hidden" || e.type == "submit" || e.type == "button"
            || e.type == "reset" || e.type == "radio") then
    none
  else if e.disabled then
    none
  else
    let label := extractLabel sc e
    if (e.id == "" || isAutoGenId e.id)
        && (e.name == "" || isAutoGenId e.name)
        && (label == "text" || label == "input" || label == "未命名字段"
              || decide (label.length ≤ 1)) then
      none
    else
      some (mkDescriptor sc e)

/-- `getFormFields` over an already-resolved scope: one descriptor per
accepted control, in document order. -/
def getFormFields (sc : Scope) : List FormField :=
  sc.elems.filterMap (extractFieldOne sc)

/-- `hasFormElements`: does the whole document hold any control matched by
`input:not([type=hidden]):not([type=submit]):not([type=button]):not([type=reset]), textarea, select`?
Disabled state, radio inputs, and modal scope are not consulted. -/
def hasFormElements (elems : List Elem) : Bool :=
  elems.any fun e =>
    match e.tag with
    | .inputTag =>
        !(e.type == "hidden" || e.type == "submit" || e.type == "button"
            || e.type == "reset")
    | _ => true

/-! ## Value injection (`fillFormData`) -/

/-- The value map handed to `fillFormData` (a plain JS object): an
association list with distinct keys; a missing key is `undefined`. -/
abbrev ValueMap := List (String × JsVal)

/-- `data[k]`, `none` meaning `undefined`. -/
def vmGet (vm : ValueMap) (k : String) : Option JsVal :=
  (List.find? (fun p => p.1 == k) vm).map (·.2)

/-- All values of the map (for stating that a map holds no `null`). -/
def vmNullFree (vm : ValueMap) : Prop :=
  ∀ p ∈ (vm : List (String × JsVal)), p.2 ≠ JsVal.null

instance (vm : ValueMap) : Decidable (vmNullFree vm) := by
  unfold vmNullFree
  infer_instance

/-- The skip set both phases of `fillFormData` share: inputs of type
hidden/submit/button/reset (radio is NOT skipped here, unlike extraction)
and disabled controls. -/
def phaseSkip (e : Elem) : Bool :=
  (e.tag == Tag.inputTag
      && (e.type == "hidden" || e.type == "submit" || e.type == "button"
            || e.type == "reset"))
    || e.disabled

/-- The label derivation of BOTH phases of `fillFormData` (identical code
in the index-building and the write pass): only the `label[for]` text,
falling back to the placeholder (empty for selects), possibly empty.  The
id/name/type fallbacks of `extractLabel` are absent here. -/
def injLabel (sc : Scope) (e : Elem) : String :=
  let label := labelElemText sc e.id
  if label == "" then
    (if e.tag == Tag.selectTag then "" else e.placeholder)
  else label

/-- JS object assignment `m[k] = v`: overwrite an existing binding, else
append. -/
def upsert : List (String × String) → String → String → List (String × String)
  | [], k, v => [(k, v)]
  | (k', v') :: rest, k, v =>
      if k' == k then (k, v) :: rest else (k', v') :: upsert rest k v

/-- `labelToFieldMap[label]`. -/
def mapGet (m : List (String × String)) (k : String) : Option String :=
  (List.find? (fun p => p.1 == k) m).map (·.2)

/-- Phase A of `fillFormData`: walk the controls in document order, skip
the shared skip set, derive the phase label, and when both the label and
the field key `name || id` are non-empty record `label ↦ fieldKey`
(later controls overwrite earlier ones with the same label). -/
def labelToFieldMap (sc : Scope) : List (String × String) :=
  sc.elems.foldl
    (fun m e =>
      if phaseSkip e then m
      else
        let label := injLabel sc e
        if label == "" then m
        else
          let fieldKey := if e.name == "" then e.id else e.name
          if fieldKey == "" then m else upsert m label fieldKey)
    []

/-- The label stage of Phase B's value resolution (reached when neither
name nor id matched): derive the phase label, probe
`data[labelToFieldMap[label]]`, and — whenever the value is still `null`
afterwards, which includes a `null` stored under the indexed key — probe
`data[label]` directly. -/
def resolveValueByLabel (sc : Scope) (vm : ValueMap) (e : Elem) : Option JsVal :=
  let label := injLabel sc e
  let viaIndex : Option JsVal :=
    if label == "" then none
    else
      match mapGet (labelToFieldMap sc) label with
      | some k => vmGet vm k
      | none => none
  match viaIndex with
  | some v =>
      -- the JS code re-tests `value === null` after the index probe, so a
      -- `null` stored under the indexed key does not stop the last probe
      if v == JsVal.null && !(label == "") && (vmGet vm label).isSome then
        vmGet vm label
      else some v
  | none =>
      if !(label == "") && (vmGet vm label).isSome then vmGet vm label
      else none

/-- The value-resolution chain of Phase B: `data[name]` when the name is
non-empty and the key is present; else `data[id]` likewise; else the label
stage. -/
def resolveValue (sc : Scope) (vm : ValueMap) (e : Elem) : Option JsVal :=
  if !(e.name == "") && (vmGet vm e.name).isSome then vmGet vm e.name
  else if !(e.id == "") && (vmGet vm e.id).isSome then vmGet vm e.id
  else resolveValueByLabel sc vm e

/-- The per-kind write of one resolved (non-null) value, returning the
updated element and the names of the events dispatched synchronously.
Branches without a `try/catch` in the code (native select, textarea,
checkbox, radio, plain input) propagate a raising DOM write as
`Except.error`; the two Ant Design widget branches catch it. -/
def writeResolved (v : JsVal) (e : Elem) : Except Unit (Elem × List String) :=
  match e.tag with
  | .selectTag =>
      if e.raises then .error () else
      let s := jsString v
      match e.options.find? (fun o => o.value == s) with
      | some o => .ok ({ e with value := o.value }, ["change"])
      | none =>
          match e.options.find? (fun o => o.text == s) with
          | some o => .ok ({ e with value := o.value }, ["change"])
          | none => .ok (e, ["change"])
  | .textareaTag =>
      if e.raises then .error ()
      else .ok ({ e with value := jsString v }, ["input", "change"])
  | .inputTag =>
      if e.type == "file" then .ok (e, [])
      else if e.type == "checkbox" then
        if e.raises then .error ()
        else .ok ({ e with checked := jsTruthy v }, ["change"])
      else if e.type == "radio" then
        if e.value == jsString v then
          if e.raises then .error ()
          else .ok ({ e with checked := true }, ["change"])
        else .ok (e, [])
      else if e.antPicker then
        -- try/catch around the date-picker manipulation: a throw is logged
        -- and swallowed; the delayed blur/change continuation is async
        if e.raises then .ok (e, [])
        else .ok ({ e with value := jsString v }, ["input", "change", "input", "focus"])
      else if e.antSelect then
        -- try/catch around the custom-select manipulation
        if e.raises then .ok (e, [])
        else if e.antSelectHasSelector then .ok (e, ["click"])
        else .ok ({ e with value := jsString v }, ["input", "change"])
      else
        if e.raises then .error ()
        else .ok ({ e with value := jsString v }, ["input", "change"])

/-- Phase B for one control: skip the shared skip set, resolve a value,
write it unless it is missing or `null`. -/
def fillOne (sc : Scope) (vm : ValueMap) (e : Elem) : Except Unit (Elem × List String) :=
  if phaseSkip e then .ok (e, [])
  else
    match resolveValue sc vm e with
    | none => .ok (e, [])
    | some v => if v == JsVal.null then .ok (e, []) else writeResolved v e

/-- The write pass over a list of controls; an uncaught exception aborts
the `forEach`, leaving the remaining controls unprocessed. -/
def fillAll (sc : Scope) (vm : ValueMap) : List Elem → Except Unit (List (Elem × List String))
  | [] => .ok []
  | e :: es =>
      match fillOne sc vm e with
      | .error u => .error u
      | .ok r =>
          match fillAll sc vm es with
          | .error u => .error u
          | .ok rs => .ok (r :: rs)

/-- `fillFormData`: Phase A builds `labelToFieldMap` (used inside
`resolveValue`), Phase B walks the controls in document order. -/
def fillFormData (sc : Scope) (vm : ValueMap) : Except Unit (List (Elem × List String)) :=
  fillAll sc vm sc.elems

/-- Equality of `Except` results is decidable. -/
def exceptDecEq {ε α : Type} [DecidableEq ε] [DecidableEq α] :
    (a b : Except ε α) → Decidable (a = b)
  | .error x, .error y =>
      if h : x = y then .isTrue (by rw [h]) else .isFalse (by simp [h])
  | .error _, .ok _ => .isFalse (by simp)
  | .ok _, .error _ => .isFalse (by simp)
  | .ok x, .ok y =>
      if h : x = y then .isTrue (by rw [h]) else .isFalse (by simp [h])

instance {ε α : Type} [DecidableEq ε] [DecidableEq α] : DecidableEq (Except ε α) :=
  exceptDecEq

/-- `Except.isOk` spelled out (an exception escaped `fillFormData` iff this
is `false`). -/
def exceptOk {ε α : Type} : Except ε α → Bool
  | .ok _ => true
  | .error _ => false

/-! ## Specification-side definitions (stated from the spec's words, for
comparison with the code-derived functions above) -/

/-- The "trailing required-marker glyphs stripped" reading of the spec: a
trailing run of `*` and whitespace is removed. -/
def stripTrailingMarker (s : String) : String :=
  ((s.toList.reverse.dropWhile (fun c => c == '*' || c.isWhitespace)).reverse).asString

/-- The label-resolution chain exactly as the claim words it: when a
`label[for=id]` element exists in scope, its trimmed text with trailing
required markers stripped; else the id unless auto-generated; else the
name; else a non-empty placeholder; else the type or the sentinel. -/
def specLabelClaimed (sc : Scope) (e : Elem) : String :=
  match (if e.id == "" then none else sc.labels.find? (fun p => p.1 == e.id)) with
  | some p => stripTrailingMarker (jsTrim p.2)
  | none =>
      if !(e.id == "") && !isAutoGenId e.id then e.id
      else if !(e.name == "") && !isAutoGenId e.name then e.name
      else
        let ph := if e.tag == Tag.selectTag then "" else e.placeholder
        if !(ph == "") then ph
        else if !(e.type == "") then e.type
        else "未命名字段"

/-- The amended label chain: like the claim's, but the label-element text
is cleaned by removing the FIRST run of asterisks (with the whitespace
around it) wherever it sits, and that text is used only when non-empty
after cleaning. -/
def specLabelAmended (sc : Scope) (e : Elem) : String :=
  if !(labelElemText sc e.id == "") then labelElemText sc e.id
  else if !(e.id == "") && !isAutoGenId e.id then e.id
  else if !(e.name == "") && !isAutoGenId e.name then e.name
  else if !((if e.tag == Tag.selectTag then "" else e.placeholder) == "") then
    (if e.tag == Tag.selectTag then "" else e.placeholder)
  else if !(e.type == "") then e.type
  else "未命名字段"

/-- First defined entry of a probe list. -/
def firstSome : List (Option JsVal) → Option JsVal
  | [] => none
  | o :: rest =>
      match o with
      | some v => some v
      | none => firstSome rest

/-- The four probes of the claim about Phase B, in order: `values[name]`,
`values[id]`, `values[labelToFieldMap[label]]`, `values[label]` (a control
without a name/id/label skips the corresponding probe). -/
def specProbes (sc : Scope) (vm : ValueMap) (e : Elem) : List (Option JsVal) :=
  [ if e.name == "" then none else vmGet vm e.name
  , if e.id == "" then none else vmGet vm e.id
  , if injLabel sc e == "" then none
    else
      match mapGet (labelToFieldMap sc) (injLabel sc e) with
      | some k => vmGet vm k
      | none => none
  , if injLabel sc e == "" then none else vmGet vm (injLabel sc e) ]

/-- The extraction eligibility the claim about `getFormFields` states:
not disabled, and not an input of type hidden/submit/button/reset/radio. -/
def eligibleExtract (e : Elem) : Bool :=
  !(e.tag == Tag.inputTag
      && (e.type == "hidden" || e.type == "submit" || e.type == "button"
            || e.type == "reset" || e.type == "radio"))
    && !e.disabled

/-- The low-information rejection of extraction step 4: id and name both
empty or auto-generated, and a label among `"text"`/`"input"`/the sentinel
or of length ≤ 1. -/
def lowInfoReject (sc : Scope) (e : Elem) : Bool :=
  (e.id == "" || isAutoGenId e.id)
    && (e.name == "" || isAutoGenId e.name)
    && (extractLabel sc e == "text" || extractLabel sc e == "input"
          || extractLabel sc e == "未命名字段"
          || decide ((extractLabel sc e).length ≤ 1))

/-- The coercion the checkbox claim asserts: `"false"`, `0`, `""` and
`null` all map to `false`; other truthy scalars map to `true`. -/
def claimedCoercion : JsVal → Bool
  | .str s => !(s == "") && !(s == "false")
  | .num n => !(n == 0)
  | .bool b => b
  | .null => false

/-- A control whose write may raise is tolerated only when it reaches one
of the two `try/catch`-protected widget branches: a plain input (not of an
excluded/special type) detected as an Ant date picker or Ant custom
select. -/
def raiseCaught (e : Elem) : Prop :=
  e.raises = true →
    e.tag = Tag.inputTag
      ∧ e.type ≠ "hidden" ∧ e.type ≠ "submit" ∧ e.type ≠ "button"
      ∧ e.type ≠ "reset" ∧ e.type ≠ "file" ∧ e.type ≠ "checkbox"
      ∧ e.type ≠ "radio"
      ∧ (e.antPicker = true ∨ e.antSelect = true)

instance (e : Elem) : Decidable (raiseCaught e) := by
  unfold raiseCaught
  infer_instance

/-! ## Concrete pages used as counterexamples and witnesses -/

/-- An input identified only by its id; no label element, no placeholder. -/
def elemIdOnly : Elem := { id := "userName" }

/-- A scope holding only `elemIdOnly`. -/
def scIdOnly : Scope := { elems := [elemIdOnly] }

/-- An input labelled `名称 *` through a `label[for]` element. -/
def elemLabelled : Elem := { id := "f1", placeholder := "ph" }

/-- Scope for `elemLabelled`. -/
def scLabelled : Scope := { elems := [elemLabelled], labels := [("f1", "名称 *")] }

/-- An input whose label element's text `A*B*` has an interior asterisk
run before the trailing one. -/
def elemStarLabel : Elem := { id := "f2", name := "starField" }

/-- Scope for `elemStarLabel`. -/
def scStarLabel : Scope := { elems := [elemStarLabel], labels := [("f2", "A*B*")] }

/-- A page with a throwing plain text input followed by a healthy one. -/
def scThrowing : Scope :=
  { elems := [{ name := "a", raises := true }, { name := "b" }] }

/-- Values for both controls of `scThrowing`. -/
def vmThrowing : ValueMap := [("a", .str "x"), ("b", .str "y")]

/-- A page whose only throwing control is an Ant date picker. -/
def scPicker : Scope :=
  { elems := [{ name := "d", antPicker := true, raises := true }, { name := "b" }] }

/-- Values for `scPicker`. -/
def vmPicker : ValueMap := [("d", .str "2024-01-01"), ("b", .str "y")]

/-- A bare text input: no id, no name, no placeholder, no label element. -/
def scBareInput : Scope := { elems := [{ }] }

/-- A checkbox named `agree`. -/
def agreeBox : Elem := { type := "checkbox", name := "agree" }

/-- Scope holding only `agreeBox`. -/
def scAgree : Scope := { elems := [agreeBox] }

/-- The generation result `{"agree": "false"}`. -/
def vmAgree : ValueMap := [("agree", .str "false")]

/-- A native select whose only option is `a` / `Alpha`, currently on
value `old`. -/
def zipSelect : Elem :=
  { tag := .selectTag, value := "old", options := [{ value := "a", text := "Alpha" }] }

/-- Another native select, for the change-event witness. -/
def citySelect : Elem :=
  { tag := .selectTag, value := "bj", options := [{ value := "bj", text := "北京" }] }

/-- A value map probed by name for `resolveValue`. -/
def vmSimple : ValueMap := [("userName", .str "张三")]

/-- A page whose only controls are a disabled text input and a radio
button. -/
def scNoFillable : Scope :=
  { elems := [{ name := "addr", disabled := true }, { type := "radio", name := "gender", value := "M" }] }

/-! ## Lemmas about the scope resolver -/

lemma insertByZ_ne_nil (x : StyledEl) (l : List StyledEl) : insertByZ x l ≠ [] := by
  cases l with
  | nil => simp [insertByZ]
  | cons y ys =>
      simp only [insertByZ]
      split <;> simp

lemma sortByZDesc_cons_ne_nil (y : StyledEl) (ys : List StyledEl) :
    sortByZDesc (y :: ys) ≠ [] := by
  simp only [sortByZDesc]
  exact insertByZ_ne_nil _ _

/-- Folding `zPick` after seeding with `zPick x y` is: the fold over the
rest seeded with `y`, unless `x` already beats it. -/
lemma foldl_zPick_shift (ys : List StyledEl) :
    ∀ x y : StyledEl,
      ys.foldl zPick (zPick x y)
        = if effZ x < effZ (ys.foldl zPick y) then ys.foldl zPick y else x := by
  induction ys with
  | nil =>
      intro x y
      simp [zPick]
  | cons a ys ih =>
      intro x y
      simp only [List.foldl]
      rw [ih (zPick x y) a, ih y a]
      unfold zPick
      split_ifs <;> first | rfl | (exfalso; omega)

/-- The head of the stable descending sort is the first element attaining
the maximal effective z-index. -/
lemma sortByZDesc_head? : ∀ l : List StyledEl, (sortByZDesc l).head? = pickTopZ l := by
  intro l
  induction l with
  | nil => rfl
  | cons x xs ih =>
      cases xs with
      | nil => simp [sortByZDesc, insertByZ, pickTopZ]
      | cons y ys =>
          cases hs : sortByZDesc (y :: ys) with
          | nil => exact absurd hs (sortByZDesc_cons_ne_nil y ys)
          | cons m t =>
              have hm : m = List.foldl zPick y ys := by
                rw [hs] at ih
                simpa [pickTopZ] using ih
              show (insertByZ x (sortByZDesc (y :: ys))).head? = _
              rw [hs]
              simp only [insertByZ, pickTopZ, List.foldl]
              rw [foldl_zPick_shift ys x y, ← hm]
              split_ifs <;> first | rfl | (exfalso; omega)

/-! ## Claim theorems -/

/-- Claim C3: `findActiveModal` returns `none` (whence the callers use the
whole document) exactly when no element passes the modal-candidate
predicate, the sole candidate when exactly one passes, and in general the
first candidate, in the order the elements are encountered, whose
effective z-index (0 for an indeterminate z-index, by `effZ`) is maximal —
`pickTopZ` is precisely that selection, so the three cases of the claim
are this single equation. -/
theorem findActiveModal_spec (dom : List StyledEl) :
    findActiveModal dom = pickTopZ (dom.filter isModalCandidate) := by
  unfold findActiveModal
  exact sortByZDesc_head? _

/-- Claim C10: a page whose only controls are a disabled text input and a
radio button still reports `hasFormElements = true` (the quick check only
excludes the four button-like input types and ignores `disabled`), while
`getFormFields` on the same controls yields no descriptor. -/
theorem hasFormElements_but_no_fields :
    hasFormElements scNoFillable.elems = true ∧ getFormFields scNoFillable = [] := by
  constructor
  · rfl
  · rfl

/-- Claim C1 counterexample: for a control identified only by its id (no
label element, no placeholder), extraction derives the label `"userName"`
from the id while Phase A of `fillFormData` derives the empty label — the
two passes do NOT share the per-control label-derivation logic. -/
theorem phaseA_label_differs :
    injLabel scIdOnly elemIdOnly ≠ extractLabel scIdOnly elemIdOnly := by
  decide

/-- Claim C1 (amended): the two label derivations agree exactly on the
`label[for]` step — whenever the control has a `label[for=id]` element in
scope whose cleaned text is non-empty, Phase A and extraction derive that
same text; the id/name/type fallbacks of extraction have no counterpart in
Phase A. -/
theorem injLabel_eq_extractLabel_of_labelFor (sc : Scope) (e : Elem)
    (h : labelElemText sc e.id ≠ "") :
    injLabel sc e = extractLabel sc e := by
  have hb : (labelElemText sc e.id == "") = false := by
    simpa using h
  unfold injLabel extractLabel
  simp [hb]

/-- Witness for the amended C1 theorem at a concrete labelled control. -/
theorem injLabel_eq_extractLabel_witness :
    labelElemText scLabelled elemLabelled.id ≠ ""
      ∧ injLabel scLabelled elemLabelled = extractLabel scLabelled elemLabelled :=
  ⟨by decide, injLabel_eq_extractLabel_of_labelFor scLabelled elemLabelled (by decide)⟩

/-- Claim C4 counterexample: the code's marker stripping removes the FIRST
asterisk run, not the trailing one: for label text `A*B*` the emitted label
is `AB*`, while the claim's chain (trailing-strip) yields `A*B`. -/
theorem extract_label_not_trailing_strip :
    (getFormFields scStarLabel).map FormField.label = [extractLabel scStarLabel elemStarLabel]
      ∧ extractLabel scStarLabel elemStarLabel = "AB*"
      ∧ specLabelClaimed scStarLabel elemStarLabel = "A*B"
      ∧ extractLabel scStarLabel elemStarLabel ≠ specLabelClaimed scStarLabel elemStarLabel := by
  refine ⟨rfl, rfl, rfl, ?_⟩
  decide

/-- Claim C4 (amended): every emitted descriptor's label follows the fixed
priority chain in which the `label[for]` element's text — cleaned by
removing the first run of `*` with surrounding whitespace — is used when
non-empty, else the id unless `:r<digits>:`-shaped, else the name under the
same exclusion, else a non-empty placeholder, else the native type string
or the unnamed sentinel; in particular a control whose label element cleans
to non-empty text never takes the placeholder. -/
theorem extracted_label_priority (sc : Scope) (e : Elem) (f : FormField)
    (h : extractFieldOne sc e = some f) :
    f.label = specLabelAmended sc e := by
  have hlab : extractLabel sc e = specLabelAmended sc e := by
    unfold extractLabel specLabelAmended
    by_cases hl : labelElemText sc e.id = ""
    · simp [hl]
    · have hb : (labelElemText sc e.id == "") = false := by simpa using hl
      simp [hb]
  simp only [extractFieldOne] at h
  split_ifs at h
  rw [← hlab]
  cases h
  rfl

/-- Witness for the amended C4 theorem at a concrete labelled control. -/
theorem extracted_label_priority_witness :
    extractFieldOne scLabelled elemLabelled = some (mkDescriptor scLabelled elemLabelled)
      ∧ (mkDescriptor scLabelled elemLabelled).label = specLabelAmended scLabelled elemLabelled := by
  refine ⟨rfl, ?_⟩
  exact extracted_label_priority scLabelled elemLabelled _ rfl

/-- The per-control outcome of extraction, phrased as a single guard: a
descriptor is emitted iff the control is eligible and not rejected as
low-information. -/
lemma extractFieldOne_eq (sc : Scope) (e : Elem) :
    extractFieldOne sc e
      = if eligibleExtract e && !lowInfoReject sc e then some (mkDescriptor sc e)
        else none := by
  cases h1 : (e.tag == Tag.inputTag
      && (e.type == "hidden" || e.type == "submit" || e.type == "button"
            || e.type == "reset" || e.type == "radio")) with
  | true => simp [extractFieldOne, eligibleExtract, h1]
  | false =>
      cases h2 : e.disabled with
      | true => simp [extractFieldOne, eligibleExtract, h1, h2]
      | false =>
          cases h3 : ((e.id == "" || isAutoGenId e.id)
              && (e.name == "" || isAutoGenId e.name)
              && (extractLabel sc e == "text" || extractLabel sc e == "input"
                    || extractLabel sc e == "未命名字段"
                    || decide ((extractLabel sc e).length ≤ 1))) with
          | true => simp [extractFieldOne, eligibleExtract, lowInfoReject, h1, h2, h3]
          | false => simp [extractFieldOne, eligibleExtract, lowInfoReject, h1, h2, h3]

/-- Claim C6 counterexample: a bare enabled text input (no id, no name, no
placeholder, no label element) is eligible by the claim's rule — not
disabled, type not among the five excluded — yet `getFormFields` emits no
descriptor for it, because of the low-information-label rejection. -/
theorem getFormFields_misses_eligible :
    getFormFields scBareInput = []
      ∧ (scBareInput.elems.filter eligibleExtract).map (mkDescriptor scBareInput) ≠ [] := by
  refine ⟨rfl, ?_⟩
  decide

/-- Claim C6 (amended): `getFormFields` emits exactly one descriptor, in
document order, for each non-disabled control whose native type is not
among hidden/submit/button/reset/radio AND which survives the
low-information rejection (label `"text"`/`"input"`/the sentinel or of
length ≤ 1 while both id and name are empty or auto-generated), and none
for any other control. -/
theorem getFormFields_characterization (sc : Scope) :
    getFormFields sc
      = (sc.elems.filter (fun e => eligibleExtract e && !lowInfoReject sc e)).map
          (mkDescriptor sc) := by
  unfold getFormFields
  have key : ∀ l : List Elem,
      l.filterMap (extractFieldOne sc)
        = (l.filter (fun e => eligibleExtract e && !lowInfoReject sc e)).map
            (mkDescriptor sc) := by
    intro l
    induction l with
    | nil => rfl
    | cons e es ih =>
        rw [List.filterMap_cons, List.filter_cons, extractFieldOne_eq]
        cases hc : (eligibleExtract e && !lowInfoReject sc e) with
        | true => simp [hc, ih]
        | false => simp [hc, ih]
  exact key sc.elems

/-- A value read out of a null-free value map is not `null`. -/
lemma vmGet_ne_null {vm : ValueMap} (h : vmNullFree vm) {k : String} {v : JsVal}
    (hv : vmGet vm k = some v) : v ≠ JsVal.null := by
  unfold vmGet at hv
  cases hfind : List.find? (fun p => p.1 == k) vm with
  | none => rw [hfind] at hv; cases hv
  | some p =>
      rw [hfind] at hv
      have hp : p ∈ vm := List.mem_of_find?_eq_some hfind
      have hpv : p.2 = v := by simpa using hv
      rw [← hpv]
      exact h p hp

/-- Over a null-free value map, the label stage is exactly the last two
probes of the claim, in order. -/
lemma resolveValueByLabel_probes (sc : Scope) (vm : ValueMap) (e : Elem)
    (h : vmNullFree vm) :
    resolveValueByLabel sc vm e
      = firstSome
          [ if injLabel sc e == "" then none
            else
              match mapGet (labelToFieldMap sc) (injLabel sc e) with
              | some k => vmGet vm k
              | none => none
          , if injLabel sc e == "" then none else vmGet vm (injLabel sc e) ] := by
  unfold resolveValueByLabel
  cases hl : (injLabel sc e == "") with
  | true => simp [firstSome, hl]
  | false =>
      cases hm : mapGet (labelToFieldMap sc) (injLabel sc e) with
      | none =>
          cases hv : vmGet vm (injLabel sc e) with
          | none => simp [firstSome, hl, hm, hv]
          | some w => simp [firstSome, hl, hm, hv]
      | some k =>
          cases hvk : vmGet vm k with
          | none =>
              cases hv : vmGet vm (injLabel sc e) with
              | none => simp [firstSome, hl, hm, hvk, hv]
              | some w => simp [firstSome, hl, hm, hvk, hv]
          | some v =>
              have hb : (v == JsVal.null) = false := by
                simpa using vmGet_ne_null h hvk
              simp [firstSome, hl, hm, hvk, hb]

/-- Claim C5: over a value map holding only scalars (no `null`, as the
ValueMap data model prescribes), Phase B resolves each control's value by
probing, in order, `values[name]`, `values[id]`,
`values[labelToFieldMap[label]]` and `values[label]`; the first defined hit
wins and a control with no hit resolves to nothing (and is then left
untouched by `fillOne`). -/
theorem resolveValue_probe_order (sc : Scope) (vm : ValueMap) (e : Elem)
    (h : vmNullFree vm) :
    resolveValue sc vm e = firstSome (specProbes sc vm e) := by
  have hlab := resolveValueByLabel_probes sc vm e h
  unfold resolveValue specProbes
  cases hn : (e.name == "") with
  | true =>
      cases hi : (e.id == "") with
      | true => simpa [firstSome, hn, hi] using hlab
      | false =>
          cases hv2 : vmGet vm e.id with
          | none => simpa [firstSome, hn, hi, hv2] using hlab
          | some w => simp [firstSome, hn, hi, hv2]
  | false =>
      cases hv1 : vmGet vm e.name with
      | none =>
          cases hi : (e.id == "") with
          | true => simpa [firstSome, hn, hi, hv1] using hlab
          | false =>
              cases hv2 : vmGet vm e.id with
              | none => simpa [firstSome, hn, hi, hv1, hv2] using hlab
              | some w => simp [firstSome, hn, hi, hv1, hv2]
      | some w => simp [firstSome, hn, hv1]

/-- Witness for C5 at a concrete control matched by name. -/
theorem resolveValue_probe_order_witness :
    vmNullFree vmSimple
      ∧ resolveValue scIdOnly vmSimple elemIdOnly
          = firstSome (specProbes scIdOnly vmSimple elemIdOnly) :=
  ⟨by decide, resolveValue_probe_order scIdOnly vmSimple elemIdOnly (by decide)⟩

/-- Every write branch succeeds when the element's DOM writes do not
raise. -/
lemma writeResolved_ok_of_not_raises {e : Elem} (hr : e.raises = false) (v : JsVal) :
    exceptOk (writeResolved v e) = true := by
  unfold writeResolved
  cases e.tag <;> simp only [hr, Bool.false_eq_true, if_false] <;>
    (repeat' split) <;> rfl

/-- A raising element reaching a widget branch is caught; together with
the non-raising case, any element satisfying `raiseCaught` writes without
an escaping exception. -/
lemma writeResolved_ok {e : Elem} (hc : raiseCaught e) (v : JsVal) :
    exceptOk (writeResolved v e) = true := by
  cases hr : e.raises with
  | false => exact writeResolved_ok_of_not_raises hr v
  | true =>
      obtain ⟨htag, hh, hs, hb, hrs, hf, hcb, hrd, hant⟩ := hc hr
      have hf' : (e.type == "file") = false := by simpa using hf
      have hcb' : (e.type == "checkbox") = false := by simpa using hcb
      have hrd' : (e.type == "radio") = false := by simpa using hrd
      unfold writeResolved
      rw [htag]
      cases hp : e.antPicker with
      | true => simp [hf', hcb', hrd', hp, hr, exceptOk]
      | false =>
          cases hant with
          | inl hpk => rw [hp] at hpk; cases hpk
          | inr hsel => simp [hf', hcb', hrd', hp, hsel, hr, exceptOk]

/-- One Phase-B step never lets an exception escape for an element whose
possible raise is caught. -/
lemma fillOne_ok (sc : Scope) (vm : ValueMap) {e : Elem} (hc : raiseCaught e) :
    exceptOk (fillOne sc vm e) = true := by
  unfold fillOne
  cases hskip : phaseSkip e with
  | true => simp [hskip, exceptOk]
  | false =>
      cases hres : resolveValue sc vm e with
      | none => simp [hskip, hres, exceptOk]
      | some v =>
          cases hv : (v == JsVal.null) with
          | true => simp [hskip, hres, hv, exceptOk]
          | false => simpa [hskip, hres, hv] using writeResolved_ok hc v

/-- The write pass succeeds and processes every control when every
possible raise is caught. -/
lemma fillAll_ok (sc : Scope) (vm : ValueMap) :
    ∀ l : List Elem, (∀ e ∈ l, raiseCaught e) →
      ∃ rs, fillAll sc vm l = .ok rs ∧ rs.length = l.length := by
  intro l
  induction l with
  | nil => exact fun _ => ⟨[], rfl, rfl⟩
  | cons e es ih =>
      intro hall
      have h1 : exceptOk (fillOne sc vm e) = true :=
        fillOne_ok sc vm (hall e (by simp))
      cases hone : fillOne sc vm e with
      | error u => rw [hone] at h1; simp [exceptOk] at h1
      | ok r =>
          obtain ⟨rs, hrs, hlen⟩ := ih (fun e' he' => hall e' (by simp [he']))
          refine ⟨r :: rs, ?_, by simp [hlen]⟩
          unfold fillAll
          rw [hone, hrs]

/-- Claim C2 counterexample: a value map matching a plain text input whose
DOM write raises makes `fillFormData` itself raise — the plain-input branch
has no `try/catch` (only the two Ant widget branches do), and the second
control is never processed. -/
theorem fillFormData_can_throw :
    exceptOk (fillFormData scThrowing vmThrowing) = false := by
  rfl

/-- Claim C2 (amended): an exception raised while writing one control is
caught (logged) and the pass continues only when that control is handled
by one of the two `try/catch`-protected Ant-widget branches; when every
raising control in scope is such a widget input, `injectValues` completes
without throwing and processes every control in document order. -/
theorem fillFormData_no_throw (sc : Scope) (vm : ValueMap)
    (H : ∀ e ∈ sc.elems, raiseCaught e) :
    ∃ rs, fillFormData sc vm = .ok rs ∧ rs.length = sc.elems.length :=
  fillAll_ok sc vm sc.elems H

/-- Witness for the amended C2 theorem: a page whose only raising control
is an Ant date picker completes, processing both controls. -/
theorem fillFormData_no_throw_witness :
    (∀ e ∈ scPicker.elems, raiseCaught e)
      ∧ ∃ rs, fillFormData scPicker vmPicker = .ok rs
          ∧ rs.length = scPicker.elems.length :=
  ⟨by decide, fillFormData_no_throw scPicker vmPicker (by decide)⟩

/-- Claim C7 counterexample: the checkbox write uses JavaScript
`Boolean(value)`, so the non-empty string `"false"` checks the box — the
claimed coercion maps `"false"` to unchecked, but the code leaves the
checkbox checked. -/
theorem checkbox_string_false_checks_true :
    fillFormData scAgree vmAgree
        = .ok [({ agreeBox with checked := true }, ["change"])]
      ∧ claimedCoercion (JsVal.str "false") = false := by
  exact ⟨rfl, rfl⟩

/-- Claim C7 (amended): a checkbox matched to a non-null value gets
`checked := Boolean(value)` — JS truthiness, under which `""`, `0` and
`false` uncheck but any non-empty string (including `"false"`) checks —
followed by a bubbling change event; a `null` value is filtered out before
the write and leaves the checkbox untouched with no event. -/
theorem checkbox_write_truthiness (sc : Scope) (vm : ValueMap) (e : Elem) (v : JsVal)
    (ht : e.tag = Tag.inputTag) (hty : e.type = "checkbox")
    (hd : e.disabled = false) (hr : e.raises = false)
    (hres : resolveValue sc vm e = some v) :
    fillOne sc vm e
      = if v == JsVal.null then .ok (e, [])
        else .ok ({ e with checked := jsTruthy v }, ["change"]) := by
  have hskip : phaseSkip e = false := by
    simp [phaseSkip, hty, hd]
  unfold fillOne
  rw [hskip, hres]
  simp only [Bool.false_eq_true, if_false]
  cases hv : (v == JsVal.null) with
  | true => simp [hv]
  | false =>
      simp only [hv, Bool.false_eq_true, if_false]
      unfold writeResolved
      rw [ht]
      simp [hty, hr]

/-- Witness for the amended C7 theorem: the concrete `"false"` write. -/
theorem checkbox_write_truthiness_witness :
    resolveValue scAgree vmAgree agreeBox = some (JsVal.str "false")
      ∧ fillOne scAgree vmAgree agreeBox
          = .ok ({ agreeBox with checked := true }, ["change"]) := by
  refine ⟨rfl, ?_⟩
  have h := checkbox_write_truthiness scAgree vmAgree agreeBox (JsVal.str "false")
    rfl rfl rfl rfl rfl
  exact h.trans (by decide)

/-- Claim C8: when the stringified value matches no option's value and no
option's text, the native-select write leaves the element — in particular
its selected value — unchanged (only the change event is dispatched). -/
theorem select_no_match_unchanged (v : JsVal) (e : Elem)
    (ht : e.tag = Tag.selectTag) (hr : e.raises = false)
    (hno : ∀ o ∈ e.options, o.value ≠ jsString v ∧ o.text ≠ jsString v) :
    writeResolved v e = .ok (e, ["change"]) := by
  have h1 : e.options.find? (fun o => o.value == jsString v) = none :=
    List.find?_eq_none.mpr (fun o ho => by simpa using (hno o ho).1)
  have h2 : e.options.find? (fun o => o.text == jsString v) = none :=
    List.find?_eq_none.mpr (fun o ho => by simpa using (hno o ho).2)
  unfold writeResolved
  rw [ht]
  simp [hr, h1, h2]

/-- Witness for C8 at a concrete select with no matching option. -/
theorem select_no_match_unchanged_witness :
    (∀ o ∈ zipSelect.options,
        o.value ≠ jsString (JsVal.str "zz") ∧ o.text ≠ jsString (JsVal.str "zz"))
      ∧ writeResolved (JsVal.str "zz") zipSelect = .ok (zipSelect, ["change"]) :=
  ⟨by decide, select_no_match_unchanged (JsVal.str "zz") zipSelect rfl rfl (by decide)⟩

/-- Claim C9: the native-select write dispatches exactly one bubbling
change event, unconditionally after the match attempt — also when no
option matches the resolved value. -/
theorem select_change_always_fires (v : JsVal) (e : Elem)
    (ht : e.tag = Tag.selectTag) (hr : e.raises = false) :
    (writeResolved v e).map Prod.snd = .ok ["change"] := by
  unfold writeResolved
  rw [ht]
  simp only [hr, Bool.false_eq_true, if_false]
  cases h1 : e.options.find? (fun o => o.value == jsString v) with
  | some o => simp [Except.map]
  | none =>
      cases h2 : e.options.find? (fun o => o.text == jsString v) with
      | some o => simp [Except.map]
      | none => simp [Except.map]

/-- Witness for C9 at a concrete select where nothing matches. -/
theorem select_change_always_fires_witness :
    citySelect.raises = false
      ∧ (writeResolved (JsVal.str "zz") citySelect).map Prod.snd = .ok ["change"] :=
  ⟨rfl, select_change_always_fires (JsVal.str "zz") citySelect rfl rfl⟩

end AutoFill
